import Mathlib

/-!
Verification development for the swarm-mind repository.

The TypeScript source is shallowly embedded: JavaScript strings become
`List Char`, JavaScript numbers become `ℚ` (exact rational arithmetic standing
in for IEEE doubles) except where the code genuinely computes with `Math.exp`,
where `ℝ` is used.  Stateful loops become explicit state-passing functions;
calls into external services (LLM backend, NASA APIs, node crypto signing)
enter as oracle arguments carrying the values those services returned.
-/

set_option maxRecDepth 4096

/-- JavaScript strings, embedded as lists of characters so that the string
operations used by the source (`slice`, `split`, concatenation) can be
reasoned about by structural induction. -/
abbrev JStr := List Char

/-- Decimal rendering of a natural number, as JavaScript template literals
render integral numbers (`Date.now()` values are integral and below 2^53). -/
def natRepr (n : ℕ) : JStr := (Nat.repr n).toList

/-- `topic.replace(/_/g, " ")` from `agent.ts`. -/
def underscoresToSpaces (s : JStr) : JStr :=
  s.map (fun c => if c = '_' then ' ' else c)

/-! ### SHA-256 (node `crypto.createHash("sha256")`, used by `hash` in `types.ts`)

The `hash` utility of `types.ts` is `sha256(utf8(content))` rendered as
lowercase hex.  The compression function below is the FIPS 180-4 algorithm over
`ℕ` with explicit `% 2^32` truncation. -/

/-- 32-bit right rotation. -/
def rotr32 (n x : ℕ) : ℕ := ((x >>> n) ||| (x <<< (32 - n))) % 4294967296

/-- The SHA-256 round constants. -/
def shaK : List ℕ :=
  [1116352408, 1899447441, 3049323471, 3921009573, 961987163,
   1508970993, 2453635748, 2870763221, 3624381080, 310598401,
   607225278, 1426881987, 1925078388, 2162078206, 2614888103,
   3248222580, 3835390401, 4022224774, 264347078, 604807628,
   770255983, 1249150122, 1555081692, 1996064986, 2554220882,
   2821834349, 2952996808, 3210313671, 3336571891, 3584528711,
   113926993, 338241895, 666307205, 773529912, 1294757372,
   1396182291, 1695183700, 1986661051, 2177026350, 2456956037,
   2730485921, 2820302411, 3259730800, 3345764771, 3516065817,
   3600352804, 4094571909, 275423344, 430227734, 506948616,
   659060556, 883997877, 958139571, 1322822218, 1537002063,
   1747873779, 1955562222, 2024104815, 2227730452, 2361852424,
   2428436474, 2756734187, 3204031479, 3329325298]

/-- The SHA-256 initial hash value. -/
def shaH0 : List ℕ :=
  [1779033703, 3144134277, 1013904242,
   2773480762, 1359893119, 2600822924,
   528734635, 1541459225]

/-- Group a byte list into big-endian 32-bit words. -/
def bytesToWords : List ℕ → List ℕ
  | a :: b :: c :: d :: rest =>
      ((a <<< 24) + (b <<< 16) + (c <<< 8) + d) :: bytesToWords rest
  | _ => []

/-- One step of the SHA-256 message-schedule extension. -/
def shaExtendStep (w : List ℕ) : List ℕ :=
  let n := w.length
  let w15 := w.getD (n - 15) 0
  let w2 := w.getD (n - 2) 0
  let s0 := (rotr32 7 w15) ^^^ (rotr32 18 w15) ^^^ (w15 >>> 3)
  let s1 := (rotr32 17 w2) ^^^ (rotr32 19 w2) ^^^ (w2 >>> 10)
  w ++ [(w.getD (n - 16) 0 + s0 + w.getD (n - 7) 0 + s1) % 4294967296]

/-- Extend a 16-word block to the 64-word schedule. -/
def shaSchedule (w : List ℕ) : List ℕ :=
  Nat.rec w (fun _ acc => shaExtendStep acc) 48

/-- One SHA-256 compression round. -/
def shaRound (st : List ℕ) (kw : ℕ × ℕ) : List ℕ :=
  match st with
  | [a, b, c, d, e, f, g, h] =>
      let s1 := (rotr32 6 e) ^^^ (rotr32 11 e) ^^^ (rotr32 25 e)
      let ch := (e &&& f) ^^^ ((e ^^^ 4294967295) &&& g)
      let temp1 := (h + s1 + ch + kw.1 + kw.2) % 4294967296
      let s0 := (rotr32 2 a) ^^^ (rotr32 13 a) ^^^ (rotr32 22 a)
      let maj := (a &&& b) ^^^ (a &&& c) ^^^ (b &&& c)
      let temp2 := (s0 + maj) % 4294967296
      [(temp1 + temp2) % 4294967296, a, b, c, (d + temp1) % 4294967296, e, f, g]
  | other => other

/-- Compress one 64-byte chunk into the running hash state. -/
def shaChunk (h : List ℕ) (chunk : List ℕ) : List ℕ :=
  let w := shaSchedule (bytesToWords chunk)
  let st := (shaK.zip w).foldl shaRound h
  (h.zip st).map (fun p => (p.1 + p.2) % 4294967296)

/-- Split a byte list into 64-byte chunks. -/
def chunks64 (l : List ℕ) : List (List ℕ) :=
  if l = [] then [] else l.take 64 :: chunks64 (l.drop 64)
termination_by l.length
decreasing_by
  simp only [List.length_drop]
  cases l with
  | nil => simp_all
  | cons a l => simp; omega

/-- SHA-256 padding: `0x80`, zeros to 56 mod 64, then the 64-bit bit length. -/
def shaPad (msg : List ℕ) : List ℕ :=
  let len := msg.length
  let zeros := (119 - len % 64) % 64
  let bits := len * 8
  msg ++ [0x80] ++ List.replicate zeros 0 ++
    ((List.range 8).map (fun j => (bits >>> (8 * (7 - j))) % 256))

/-- SHA-256 of a byte list, as a 32-byte digest. -/
def sha256 (msg : List ℕ) : List ℕ :=
  ((chunks64 (shaPad msg)).foldl shaChunk shaH0).flatMap
    (fun w => [(w >>> 24) % 256, (w >>> 16) % 256, (w >>> 8) % 256, w % 256])

/-- UTF-8 encoding of one character (node `Buffer.from(str, "utf-8")`). -/
def utf8Char (c : Char) : List ℕ :=
  let n := c.toNat
  if n < 0x80 then [n]
  else if n < 0x800 then [0xC0 ||| (n >>> 6), 0x80 ||| (n &&& 63)]
  else if n < 0x10000 then
    [0xE0 ||| (n >>> 12), 0x80 ||| ((n >>> 6) &&& 63), 0x80 ||| (n &&& 63)]
  else
    [0xF0 ||| (n >>> 18), 0x80 ||| ((n >>> 12) &&& 63),
     0x80 ||| ((n >>> 6) &&& 63), 0x80 ||| (n &&& 63)]

/-- UTF-8 encoding of a string. -/
def utf8Encode (s : JStr) : List ℕ := s.flatMap utf8Char

/-- Lowercase hex digit table used by node's `digest("hex")`. -/
def hexDigitChar (n : ℕ) : Char := "0123456789abcdef".toList.getD n '0'

/-- Render a byte list as lowercase hex, two digits per byte. -/
def bytesToHex (bs : List ℕ) : JStr :=
  bs.flatMap (fun b => [hexDigitChar (b / 16 % 16), hexDigitChar (b % 16)])

/-- The `hash` utility from `types.ts`:
`crypto.createHash("sha256").update(content).digest("hex")`. -/
def hashHex (s : JStr) : JStr := bytesToHex (sha256 (utf8Encode s))

/-! ### Data model (`types.ts`) -/

/-- A pheromone/Signal, from the `Pheromone` interface of `types.ts`. -/
structure Pheromone where
  id : JStr
  agentId : JStr
  content : JStr
  domain : JStr
  confidence : ℚ
  strength : ℚ
  connections : List JStr
  timestamp : ℕ
  attestation : JStr
  agentPubkey : Option JStr := none
  eigendaCommitment : Option JStr := none
deriving DecidableEq

/-- The per-process channel, from the `PheromoneChannel` interface. -/
structure PheromoneChannel where
  pheromones : List Pheromone
  density : ℚ
  criticalThreshold : ℚ
  phaseTransitionOccurred : Bool
  transitionStep : Option ℕ
deriving DecidableEq

/-! ### Channel operations -/

/-- `computeDensity` from `swarm.ts` (both orchestrated variants carry the
identical function body). -/
def computeDensity (ch : PheromoneChannel) (agentCount : ℕ) : ℚ :=
  if ch.pheromones = [] then 0 else
  let active := ch.pheromones.filter (fun p => decide ((1 : ℚ)/10 < p.strength))
  let avgStrength :=
    (active.map (·.strength)).sum / max 1 (active.length : ℚ)
  let totalConnections :=
    (active.map (fun p => (p.connections.length : ℚ))).sum
  let connectivity :=
    totalConnections / max 1 ((active.length : ℚ) * (agentCount : ℚ))
  let raw :=
    ((active.length : ℚ) / ((agentCount : ℚ) * 8)) * avgStrength *
      (1 + connectivity * 2)
  min 1 raw

/-- The density formula exactly as §4.1 of the specification words it; declared
separately so `computeDensity` (translated from the source) can be compared
against it. -/
def specDensityFormula (ch : PheromoneChannel) (agentCount : ℕ) : ℚ :=
  let active := ch.pheromones.filter (fun p => decide ((1 : ℚ)/10 < p.strength))
  let avgStrength :=
    if active = [] then 0 else (active.map (·.strength)).sum / (active.length : ℚ)
  let totalConn := (active.map (fun p => (p.connections.length : ℚ))).sum
  let connectivity := totalConn / max 1 ((active.length : ℚ) * (agentCount : ℚ))
  let raw :=
    ((active.length : ℚ) / ((agentCount : ℚ) * 8)) * avgStrength *
      (1 + 2 * connectivity)
  min 1 raw

/-- `updateDensity` from `runner.ts`: the gossip runner's per-tick density. -/
def updateDensity (ch : PheromoneChannel) : ℚ :=
  let active := ch.pheromones.filter (fun p => decide ((1 : ℚ)/10 < p.strength))
  let avgStr :=
    if active.length = 0 then 0
    else (active.map (·.strength)).sum / (active.length : ℚ)
  min 1 (((active.length : ℚ) / 24) * avgStr * (3/2))

/-- `decayPheromones` from `swarm.ts` (the runner's inline decay at
`runner.ts:312-313` is the same computation): multiply every strength by
`1 - 0.12` and drop everything at or below `0.05`. -/
def decayOne (p : Pheromone) : Pheromone :=
  { p with strength := p.strength * (22/25) }

def decaySurvivors (ch : PheromoneChannel) : List Pheromone :=
  (ch.pheromones.map decayOne).filter (fun p => decide ((1 : ℚ)/20 < p.strength))

def decayPheromones (ch : PheromoneChannel) : PheromoneChannel :=
  { ch with pheromones := decaySurvivors ch }

/-- The orchestrated phase-transition check from `swarm.ts:237-242` (identical
at `swarm.ts:701-706`): the latch is set when it is not yet set and the
synchronized-agent count reaches `Math.ceil(SWARM_SIZE * 0.5)`, which for a
natural `swarmSize` is `(swarmSize + 1) / 2` in natural division.  The current
density is not consulted. -/
def checkPhaseTransition (ch : PheromoneChannel) (syncCount swarmSize step : ℕ) :
    PheromoneChannel :=
  if ¬ch.phaseTransitionOccurred ∧ (swarmSize + 1) / 2 ≤ syncCount then
    { ch with phaseTransitionOccurred := true, transitionStep := some step }
  else ch

/-- Append a pheromone only if no pheromone with the same id is present — the
shared body of the pull-integration loop (`runner.ts:175-182`) and of the POST
handler's guarded push. -/
def depositIfAbsent (ch : PheromoneChannel) (p : Pheromone) : PheromoneChannel :=
  if ch.pheromones.any (fun e => e.id = p.id) then ch
  else { ch with pheromones := ch.pheromones ++ [p] }

/-- The `POST /pheromone` handler from `runner.ts:281-287`: a falsy (empty) id
is dropped, otherwise deposit-if-absent.  The strength field is not checked. -/
def postPheromoneHandler (ch : PheromoneChannel) (p : Pheromone) : PheromoneChannel :=
  if p.id = [] then ch else depositIfAbsent ch p

/-- The pull-integration loop from `runner.ts:167-183`: sequentially deposit
every fetched pheromone whose id is not yet present. -/
def pullIntegrate (ch : PheromoneChannel) (pulled : List Pheromone) : PheromoneChannel :=
  pulled.foldl depositIfAbsent ch

/-- The local emit deposit, `channel.pheromones.push(pheromone)` at
`runner.ts:358` (and `channel.pheromones.push(...newPheromones)` at
`swarm.ts:231` / `swarm.ts:695`): an unconditional append, with no id check. -/
def emitDeposit (ch : PheromoneChannel) (p : Pheromone) : PheromoneChannel :=
  { ch with pheromones := ch.pheromones ++ [p] }

/-- Number of pheromones carrying a given id. -/
def countId (ps : List Pheromone) (x : JStr) : ℕ :=
  @List.count JStr instBEqOfDecidableEq x (ps.map (·.id))

/-! ### The gossip runner's per-tick loop (`runner.ts:304-371`)

One iteration of `run()` is modelled as a state-transition function.  The
effects of `agent.step(channel)` — absorption boosts to pheromone strengths,
the optional emitted pheromone, and updates to the agent's own flags — involve
randomness, NASA fetches and LLM calls, so they enter through the tick input as
oracle values; the source's `agent.step` never writes the channel's
`density`, `phaseTransitionOccurred` or `transitionStep` fields, which is what
the latch theorems rest on. -/

/-- The channel-reset-relevant slice of the agent's state
(`agent.state.synchronized`, `syncedWith`, `absorbed`, `energy`). -/
structure RunnerAgent where
  synchronized : Bool
  syncedWith : List JStr
  absorbed : List JStr
  energy : ℚ
deriving DecidableEq

/-- The state carried across iterations of `run()`. -/
structure RunnerState where
  channel : PheromoneChannel
  agent : RunnerAgent
  step : ℕ

/-- Oracle inputs to one tick: the pheromones fetched from peers, the fresh
`Math.random()` draw used by the cycle reset's energy reseed, the channel's
pheromone list as transformed by `agent.step` (absorption boosts), the
pheromone emitted this tick if any, and the agent-state update performed by
`agent.step`. -/
structure TickIn where
  pulled : List Pheromone
  energyRand : ℚ
  agentEffect : List Pheromone → List Pheromone
  emitted : Option Pheromone
  agentUpd : RunnerAgent → RunnerAgent

/-- Whether the runner's local phase-transition check fires
(`runner.ts:319-321`): latch unset, `density ≥ criticalThreshold`, and at
least three pheromones of `strength > 0.4`. -/
def runnerTransitionFires (ch : PheromoneChannel) : Bool :=
  !ch.phaseTransitionOccurred && decide (ch.criticalThreshold ≤ ch.density) &&
    decide (3 ≤ (ch.pheromones.filter (fun p => decide ((2 : ℚ)/5 < p.strength))).length)

/-- The runner's local phase-transition check (`runner.ts:319-332`). -/
def runnerTransitionCheck (ch : PheromoneChannel) (step : ℕ) : PheromoneChannel :=
  if runnerTransitionFires ch then
    { ch with phaseTransitionOccurred := true, transitionStep := some step }
  else ch

/-- Whether the cycle reset fires (`runner.ts:336-341`): latch set,
`transitionStep` non-null, and `step - transitionStep ≥ 18`. -/
def runnerResetFires (ch : PheromoneChannel) (step : ℕ) : Bool :=
  match ch.transitionStep with
  | some ts => ch.phaseTransitionOccurred && decide (18 ≤ step - ts)
  | none => false

/-- The cycle reset (`runner.ts:334-351`): wipe the pheromone list and
density, clear the latch and `transitionStep`, un-synchronize the agent, clear
`syncedWith` and `absorbed`, and reseed `energy = 0.3 + Math.random() * 0.2`. -/
def runnerCycleReset (ch : PheromoneChannel) (ag : RunnerAgent) (step : ℕ)
    (rand : ℚ) : PheromoneChannel × RunnerAgent :=
  if runnerResetFires ch step then
    ({ pheromones := [], density := 0, criticalThreshold := ch.criticalThreshold,
       phaseTransitionOccurred := false, transitionStep := none },
     { synchronized := false, syncedWith := [], absorbed := [],
       energy := 3/10 + rand * (1/5) })
  else (ch, ag)

/-- The channel after the pull, decay and density phases of one tick. -/
def tickCh3 (s : RunnerState) (inp : TickIn) : PheromoneChannel :=
  let ch2 := decayPheromones (pullIntegrate s.channel inp.pulled)
  { ch2 with density := updateDensity ch2 }

/-- One full tick of `run()`, returning the next state together with whether
the transition latch was set and whether the cycle reset fired this tick. -/
def runnerTickE (s : RunnerState) (inp : TickIn) : RunnerState × Bool × Bool :=
  let step' := s.step + 1
  let ch3 := tickCh3 s inp
  let didSet := runnerTransitionFires ch3
  let ch4 := runnerTransitionCheck ch3 step'
  let didReset := runnerResetFires ch4 step'
  let (ch5, ag5) := runnerCycleReset ch4 s.agent step' inp.energyRand
  let ch6 := { ch5 with pheromones := inp.agentEffect ch5.pheromones }
  let ch7 :=
    match inp.emitted with
    | some p => { ch6 with pheromones := ch6.pheromones ++ [p] }
    | none => ch6
  ({ channel := ch7, agent := inp.agentUpd ag5, step := step' }, didSet, didReset)

/-- One tick, state part only. -/
def runnerTick (s : RunnerState) (inp : TickIn) : RunnerState :=
  (runnerTickE s inp).1

/-- The tick set the latch. -/
def tickSets (s : RunnerState) (inp : TickIn) : Bool := (runnerTickE s inp).2.1

/-- The tick fired the cycle reset. -/
def tickResets (s : RunnerState) (inp : TickIn) : Bool := (runnerTickE s inp).2.2

/-- State after a sequence of ticks. -/
def runSteps (s : RunnerState) (ins : List TickIn) : RunnerState :=
  ins.foldl runnerTick s

/-- No tick of the input sequence, run from `s`, fires the cycle reset. -/
def NoReset : RunnerState → List TickIn → Prop
  | _, [] => True
  | s, i :: l => tickResets s i = false ∧ NoReset (runnerTick s i) l

/-! ### Decision engine (`decider.ts`, provided as an unnamed source file) -/

/-- The `AgentAction` discriminated union from `types.ts`.  `share_finding`
carries its optional `topic` property. -/
inductive AgentAction where
  | analyze_dataset (topic : JStr)
  | share_finding (finding : JStr) (topic : Option JStr)
  | correlate_findings (topics : List JStr)
  | explore_topic (topic : JStr)
deriving DecidableEq

/-- `DecisionCost` from `types.ts` (`riskLevel` is always `"low"` here). -/
structure DecisionCost where
  estimatedTokens : ℕ
  estimatedTimeMs : ℕ
deriving DecidableEq

/-- Decision status values from `types.ts`. -/
inductive DecisionStatus where
  | pending | executing | completed | failed
deriving DecidableEq

/-- `AgentDecision` from `types.ts`, with the fields the decision engine
reads and writes. -/
structure AgentDecision where
  id : JStr
  agentId : JStr
  action : AgentAction
  priority : ℚ
  cost : DecisionCost
  status : DecisionStatus
  createdAt : ℕ
deriving DecidableEq

/-- `Math.max(...candidates.map(c => c.priority))` over a non-empty list. -/
def maxPri : List AgentDecision → ℚ
  | [] => 0
  | c :: cs => (cs.map (·.priority)).foldl max c.priority

/-- The softmax weights `exp((p_i - maxP) / temperature)` of
`selectDecision`. -/
noncomputable def weightsOf (cands : List AgentDecision) (T : ℚ) : List ℝ :=
  cands.map (fun d => Real.exp (((d.priority : ℝ) - (maxPri cands : ℝ)) / (T : ℝ)))

/-- `weights.reduce((s, w) => s + w, 0)`. -/
noncomputable def wtotal (cands : List AgentDecision) (T : ℚ) : ℝ :=
  (weightsOf cands T).sum

/-- The sampling loop of `selectDecision`: subtract weights from the roll and
return the first index where it is no longer positive; `none` when the loop
falls through. -/
noncomputable def selectLoop : List ℝ → ℝ → Option ℕ
  | [], _ => none
  | w :: ws, roll =>
      if roll - w ≤ 0 then some 0 else (selectLoop ws (roll - w)).map (· + 1)

/-- Index chosen by the sampling branch of `selectDecision`, with the
fall-through returning index `0` (`return candidates[0]`).  `r` is the
`Math.random()` draw in `[0, 1)`. -/
noncomputable def selectIndex (cands : List AgentDecision) (T : ℚ) (r : ℝ) : ℕ :=
  (selectLoop (weightsOf cands T) (r * wtotal cands T)).getD 0

/-- `selectDecision` from the decision engine: `null` on an empty list, the
first candidate when `temperature === 0`, otherwise softmax sampling driven by
the random draw `r`. -/
noncomputable def selectDecision (cands : List AgentDecision) (T : ℚ) (r : ℝ) :
    Option AgentDecision :=
  match cands with
  | [] => none
  | c :: rest =>
      if T = 0 then some c
      else some ((c :: rest).getD (selectIndex (c :: rest) T r) c)

/-- Sum of the first `n` entries of a weight list (the running cumulative
total subtracted by the sampling loop). -/
def psum : List ℝ → ℕ → ℝ
  | _, 0 => 0
  | [], _ + 1 => 0
  | w :: ws, n + 1 => w + psum ws n

/-! ### Credit tiers and the reasoning gate (`thinker.ts`, provided as part of
`executor.ts`'s source file) -/

/-- Credit tiers from the credit governor. -/
inductive Tier where
  | normal | low_compute | critical | dead
deriving DecidableEq

/-- The credit record carried on the agent state. -/
structure Credits where
  balance : ℚ
  earned : ℚ
  spent : ℚ
  tier : Tier
  distressEmitted : Bool
deriving DecidableEq

/-- LLM providers recognized by the thinker. -/
inductive LLMProvider where
  | eigenai | openai | anthropic
deriving DecidableEq

/-- The slice of `AutonomousAgentState` the thinker reads: the agent id and
credit record, plus the token counter its callers update. -/
structure ThinkerAgentState where
  id : JStr
  tokensUsed : ℕ
  tokenBudget : ℕ
  credits : Credits
deriving DecidableEq

/-- `resolveModel` from the thinker: `normal` proceeds unchanged,
`low_compute` swaps in the cheaper model only on the Anthropic provider, and
`critical`/`dead` skip the LLM call entirely. -/
def resolveModel (st : ThinkerAgentState) (provider : LLMProvider)
    (fallbackModel : Option JStr) : Option JStr × Bool :=
  match st.credits.tier with
  | Tier.normal => (none, false)
  | Tier.low_compute =>
      if provider = LLMProvider.anthropic then (fallbackModel, false)
      else (none, false)
  | Tier.critical => (none, true)
  | Tier.dead => (none, true)

/-- A structured thought (`AgentThought` from `types.ts`). -/
structure AgentThought where
  id : JStr
  agentId : JStr
  trigger : JStr
  observation : JStr
  reasoning : JStr
  conclusion : JStr
  suggestedActions : List JStr
  confidence : ℚ
  timestamp : ℕ
deriving DecidableEq

/-- The parsed outcome of one `callLLM` round trip: the JSON fields the
thinker reads out of the response (after its `JSON.parse` try/catch) and the
token count reported by the API.  Optional fields model JavaScript's
`parsed.field || default` fallbacks. -/
structure LLMOut where
  reasoning : Option JStr
  conclusion : Option JStr
  suggestedActions : Option (List JStr)
  confidence : Option ℚ
  tokensUsed : ℕ
deriving DecidableEq

/-- JavaScript `x || d` on an optional number: `undefined` and `0` both fall
back to the default. -/
def jsNumOr (x : Option ℚ) (d : ℚ) : ℚ :=
  match x with
  | none => d
  | some v => if v = 0 then d else v

/-- `Math.max(0, Math.min(1, x))`. -/
def clamp01 (x : ℚ) : ℚ := max 0 (min 1 x)

/-- `formThought` from the thinker.  At `critical`/`dead` tier it returns the
canned conserving-resources thought with zero tokens and never reaches the
LLM; otherwise it builds a thought from the parsed LLM output `llm`.
`freshId` and `now` are the `uuid()` and `Date.now()` draws. -/
def formThought (st : ThinkerAgentState) (provider : LLMProvider)
    (fallbackModel : Option JStr) (trigger observation : JStr) (llm : LLMOut)
    (freshId : JStr) (now : ℕ) : AgentThought × ℕ :=
  let rm := resolveModel st provider fallbackModel
  if rm.2 then
    ({ id := freshId, agentId := st.id, trigger := trigger,
       observation := observation,
       reasoning := "Agent conserving resources (critical tier).".toList,
       conclusion := "Monitoring passively.".toList,
       suggestedActions := [], confidence := 1/5, timestamp := now }, 0)
  else
    ({ id := freshId, agentId := st.id, trigger := trigger,
       observation := observation,
       reasoning := llm.reasoning.getD [],
       conclusion := llm.conclusion.getD [],
       suggestedActions := llm.suggestedActions.getD [],
       confidence := clamp01 (jsNumOr llm.confidence (1/2)),
       timestamp := now }, llm.tokensUsed)

/-- The dataset fields `analyzeDataset` reads. -/
structure ScienceDataset where
  topic : JStr
  subtopic : JStr
  highlights : List JStr
  recordCount : ℕ
deriving DecidableEq

/-- `analyzeDataset` from the thinker; same credit gate as `formThought`,
with the canned thought quoting the dataset's first highlight. -/
def analyzeDataset (st : ThinkerAgentState) (provider : LLMProvider)
    (fallbackModel : Option JStr) (ds : ScienceDataset) (llm : LLMOut)
    (freshId : JStr) (now : ℕ) : AgentThought × ℕ :=
  let rm := resolveModel st provider fallbackModel
  if rm.2 then
    ({ id := freshId, agentId := st.id,
       trigger := "dataset_analysis:".toList ++ ds.topic,
       observation := "Scanned ".toList ++ ds.subtopic,
       reasoning := "Agent conserving resources (critical tier).".toList,
       conclusion := (ds.highlights.headD "Dataset noted.".toList),
       suggestedActions := [], confidence := 1/5, timestamp := now }, 0)
  else
    ({ id := freshId, agentId := st.id,
       trigger := "dataset_analysis:".toList ++ ds.topic,
       observation := "Analyzed ".toList ++ ds.subtopic,
       reasoning := llm.reasoning.getD [],
       conclusion := llm.conclusion.getD [],
       suggestedActions := llm.suggestedActions.getD [],
       confidence := clamp01 (jsNumOr llm.confidence (3/5)),
       timestamp := now }, llm.tokensUsed)

/-- `synthesizeKnowledge` from the thinker; same credit gate. -/
def synthesizeKnowledge (st : ThinkerAgentState) (provider : LLMProvider)
    (fallbackModel : Option JStr) (pheromones : List Pheromone) (llm : LLMOut)
    (freshId : JStr) (now : ℕ) : AgentThought × ℕ :=
  let rm := resolveModel st provider fallbackModel
  if rm.2 then
    ({ id := freshId, agentId := st.id,
       trigger := "knowledge_synthesis".toList,
       observation := "Passive scan of ".toList ++ natRepr pheromones.length ++
         " pheromones".toList,
       reasoning := "Agent conserving resources (critical tier).".toList,
       conclusion := "Monitoring swarm signals.".toList,
       suggestedActions := [], confidence := 1/5, timestamp := now }, 0)
  else
    ({ id := freshId, agentId := st.id,
       trigger := "knowledge_synthesis".toList,
       observation := "Synthesized ".toList ++ natRepr pheromones.length ++
         " pheromones across domains".toList,
       reasoning := llm.reasoning.getD [],
       conclusion := llm.conclusion.getD [],
       suggestedActions := llm.suggestedActions.getD [],
       confidence := clamp01 (jsNumOr llm.confidence (1/2)),
       timestamp := now }, llm.tokensUsed)

/-- The structured collective report (`CollectiveReport` from `types.ts`). -/
structure CollectiveReport where
  overview : JStr
  keyFindings : List JStr
  opinions : JStr
  improvements : List JStr
  verdict : JStr
deriving DecidableEq

/-- The parsed outcome of the collective-report LLM call. -/
structure ReportLLMOut where
  overview : Option JStr
  keyFindings : Option (List JStr)
  opinions : Option JStr
  improvements : Option (List JStr)
  verdict : Option JStr
  tokensUsed : ℕ
deriving DecidableEq

/-- `generateCollectiveReport` from the thinker: it calls the LLM directly
with no `resolveModel` gate and reports the API's token count unchanged. -/
def generateCollectiveReport (topic : JStr) (llm : ReportLLMOut) :
    CollectiveReport × ℕ :=
  ({ overview := llm.overview.getD topic,
     keyFindings := llm.keyFindings.getD [],
     opinions := llm.opinions.getD [],
     improvements := llm.improvements.getD [],
     verdict := llm.verdict.getD [] }, llm.tokensUsed)

/-- The token accounting of `generateCollectiveMemory` in `runner.ts:116-122`:
`agent.state.tokensUsed += tokensUsed` with the count returned by
`generateCollectiveReport`, performed for every agent regardless of credit
tier. -/
def runnerCollectiveTokens (st : ThinkerAgentState) (topic : JStr)
    (llm : ReportLLMOut) : ℕ :=
  st.tokensUsed + (generateCollectiveReport topic llm).2

/-! ### Keystore (`keystore.ts`, provided as an unnamed source file)

Ed25519 signing and verification are performed by node's `crypto` module, an
external library; they enter as function parameters `sign` and `verify`, with
the library's contract (verification accepts genuine signatures; hex encoding
yields colon-free strings) taken as hypotheses of the theorems. -/

/-- JavaScript `str.split(sep)` for a one-character separator. -/
def jsplit (sep : Char) : JStr → List JStr
  | [] => [[]]
  | c :: rest =>
      if c = sep then [] :: jsplit sep rest
      else
        match jsplit sep rest with
        | [] => [[c]]
        | s :: ss => (c :: s) :: ss

/-- The signing payload `content + "|" + agentId + "|" + timestamp`. -/
def attestPayload (content agentId : JStr) (timestamp : ℕ) : JStr :=
  content ++ "|".toList ++ agentId ++ "|".toList ++ natRepr timestamp

/-- `buildAttestation` from the keystore:
`"ed25519:" + sig + ":" + publicKeyHex` with `sig = signContent(payload, privateKeyHex)`. -/
def buildAttestation (sign : JStr → JStr → JStr) (content agentId : JStr)
    (timestamp : ℕ) (privateKeyHex publicKeyHex : JStr) : JStr :=
  "ed25519:".toList ++ sign privateKeyHex (attestPayload content agentId timestamp) ++
    ":".toList ++ publicKeyHex

/-- Result record of `verifyAttestation`. -/
structure VerifyResult where
  valid : Bool
  publicKey : Option JStr
  fingerprint : Option JStr
deriving DecidableEq

/-- `verifyAttestation` from the keystore: check the `"ed25519:"` tag, split
the remainder on `":"`, take the first two fields as signature and public key,
verify the recomputed payload, and return the key with its sha256-prefix
fingerprint. -/
def verifyAttestation (verify : JStr → JStr → JStr → Bool) (attestation : JStr)
    (content agentId : JStr) (timestamp : ℕ) : VerifyResult :=
  if ("ed25519:".toList).isPrefixOf attestation then
    match jsplit ':' (attestation.drop 8) with
    | sig :: pubKey :: _ =>
        { valid := verify (attestPayload content agentId timestamp) sig pubKey,
          publicKey := some pubKey,
          fingerprint := some ((hashHex pubKey).take 16) }
    | _ => { valid := false, publicKey := none, fingerprint := none }
  else { valid := false, publicKey := none, fingerprint := none }

/-! ### Agent emission (`agent.ts`) -/

/-- The `"topic" in decision.action ? action.topic : explorationTarget`
dispatch of `createSciencePheromone`: `analyze_dataset` and `explore_topic`
carry `topic`, `share_finding` carries it when present, `correlate_findings`
has no `topic` property. -/
def actionTopic (a : AgentAction) (explorationTarget : JStr) : JStr :=
  match a with
  | AgentAction.analyze_dataset t => t
  | AgentAction.explore_topic t => t
  | AgentAction.share_finding _ (some t) => t
  | AgentAction.share_finding _ none => explorationTarget
  | AgentAction.correlate_findings _ => explorationTarget

/-- `createSciencePheromone` from `agent.ts:265-297` (deep mode): the
attestation is `hash(result.summary + this.state.id + Date.now())` — the
SHA-256 fallback, with no Ed25519 signature.  `now1` is the `Date.now()` used
for the `timestamp` field and `now2` the separate `Date.now()` call inside the
`hash` argument. -/
def createSciencePheromone (stateId : JStr) (decision : AgentDecision)
    (summary explorationTarget freshId : JStr) (now1 now2 : ℕ) : Pheromone :=
  { id := freshId,
    agentId := stateId,
    content := summary,
    domain := underscoresToSpaces (actionTopic decision.action explorationTarget),
    confidence := decision.priority,
    strength := 13/20 + decision.priority * (3/10),
    connections := [],
    timestamp := now1,
    attestation := hashHex (summary ++ stateId ++ natRepr now2) }

/-- The pheromone constructed by `exploreScience` in `agent.ts:333-343`
(light mode): again `attestation = hash(content + this.state.id + Date.now())`
with no signature. -/
def explorePheromone (stateId content datasetTopic : JStr)
    (confidence : ℚ) (connections : List JStr) (freshId : JStr)
    (now1 now2 : ℕ) : Pheromone :=
  { id := freshId,
    agentId := stateId,
    content := content,
    domain := underscoresToSpaces datasetTopic,
    confidence := confidence,
    strength := 1/2 + confidence * (3/10),
    connections := connections,
    timestamp := now1,
    attestation := hashHex (content ++ stateId ++ natRepr now2) }

/-! ### Concrete values used by the witness and counterexample theorems -/

/-- A pheromone with the given numeric id and strength and neutral other
fields. -/
def mkPher (i : ℕ) (s : ℚ) : Pheromone :=
  { id := natRepr i, agentId := "x".toList, content := "c".toList,
    domain := "d".toList, confidence := 1/2, strength := s,
    connections := [], timestamp := 0, attestation := [] }

/-- A channel holding the given pheromones, with zero density, the default
critical threshold `0.55`, and the latch unset. -/
def mkChannel (ps : List Pheromone) : PheromoneChannel :=
  { pheromones := ps, density := 0, criticalThreshold := 11/20,
    phaseTransitionOccurred := false, transitionStep := none }

/-- A channel holding one pheromone of strength `1/2` and one connection, used
to separate the runner's density formula from the specification formula. -/
def chOnePher : PheromoneChannel := mkChannel [mkPher 0 (1/2)]

/-- The latched channel used to exercise the cycle reset: transition recorded
at step `1`. -/
def chLatched : PheromoneChannel :=
  { pheromones := [mkPher 0 (1/2)], density := 3/10, criticalThreshold := 11/20,
    phaseTransitionOccurred := true, transitionStep := some 1 }

/-- A neutral runner agent. -/
def agNeutral : RunnerAgent :=
  { synchronized := true, syncedWith := ["x".toList], absorbed := ["0".toList],
    energy := 1 }

/-- Initial runner state for the latch witness. -/
def rsInit : RunnerState :=
  { channel := mkChannel [], agent := agNeutral, step := 0 }

/-- Tick input pulling ten fresh full-strength pheromones; after the `0.12`
decay their strengths are `0.88`, giving density exactly `0.55`. -/
def tickPull10 : TickIn :=
  { pulled := (List.range 10).map (fun k => mkPher k 1), energyRand := 0,
    agentEffect := fun l => l, emitted := none, agentUpd := fun a => a }

/-- Tick input with no activity. -/
def tickIdle : TickIn :=
  { pulled := [], energyRand := 0, agentEffect := fun l => l, emitted := none,
    agentUpd := fun a => a }

/-- A low-priority decision. -/
def decLow : AgentDecision :=
  { id := "1".toList, agentId := "a".toList,
    action := AgentAction.explore_topic "mars_weather".toList,
    priority := 1/10, cost := { estimatedTokens := 2000, estimatedTimeMs := 10000 },
    status := DecisionStatus.pending, createdAt := 0 }

/-- A high-priority decision. -/
def decHigh : AgentDecision :=
  { id := "2".toList, agentId := "a".toList,
    action := AgentAction.analyze_dataset "solar_flares".toList,
    priority := 9/10, cost := { estimatedTokens := 2500, estimatedTimeMs := 12000 },
    status := DecisionStatus.pending, createdAt := 0 }

/-- A thinker agent state sitting at the `dead` credit tier with no tokens
used. -/
def stDead : ThinkerAgentState :=
  { id := "agent0".toList, tokensUsed := 0, tokenBudget := 50000,
    credits := { balance := -1, earned := 0, spent := 101, tier := Tier.dead,
                 distressEmitted := true } }

/-- A thinker agent state at the `critical` tier. -/
def stCritical : ThinkerAgentState :=
  { id := "agent1".toList, tokensUsed := 7, tokenBudget := 50000,
    credits := { balance := 1, earned := 0, spent := 99, tier := Tier.critical,
                 distressEmitted := true } }

/-- An LLM response carrying a nonzero token count. -/
def llmBusy : LLMOut :=
  { reasoning := some "r".toList, conclusion := some "c".toList,
    suggestedActions := some [], confidence := some (7/10), tokensUsed := 500 }

/-- A collective-report LLM response carrying a nonzero token count. -/
def reportBusy : ReportLLMOut :=
  { overview := some "o".toList, keyFindings := some [],
    opinions := some "op".toList, improvements := some [],
    verdict := some "v".toList, tokensUsed := 100 }

/-! ## Theorems -/

/-- Claim C1 (amended): in the orchestrated variant the phase-transition latch
is set on a step exactly when it is not already set and the synchronized-agent
count reaches `⌈swarmSize/2⌉`; the channel's density is not consulted by this
check. -/
theorem checkPhaseTransition_sets_iff (ch : PheromoneChannel)
    (syncCount swarmSize step : ℕ) :
    ((checkPhaseTransition ch syncCount swarmSize step).phaseTransitionOccurred = true
        ∧ ch.phaseTransitionOccurred = false)
      ↔ (ch.phaseTransitionOccurred = false ∧ (swarmSize + 1) / 2 ≤ syncCount) := by
  unfold checkPhaseTransition
  by_cases h : ¬ch.phaseTransitionOccurred ∧ (swarmSize + 1) / 2 ≤ syncCount
  · simp only [if_pos h]
    simp only [Bool.not_eq_true] at h
    simp [h.1, h.2]
  · simp only [if_neg h]
    push_neg at h
    constructor
    · rintro ⟨hset, hfalse⟩
      exact absurd hset (by simp [hfalse])
    · rintro ⟨hfalse, hcount⟩
      exact absurd hcount (not_le.mpr (h (by simp [hfalse])))

/-- Claim C1, counterexample to the claim as stated: with an empty channel of
density `0 < 0.55` and three of six agents synchronized, the orchestrated check
sets the latch even though the density is below the critical threshold. -/
theorem checkPhaseTransition_ignores_density :
    (checkPhaseTransition (mkChannel []) 3 6 5).phaseTransitionOccurred = true
      ∧ (mkChannel []).density < (mkChannel []).criticalThreshold := by
  with_unfolding_all decide

/-- Claim C1, witness: the amended characterization instantiated on a concrete
channel, exhibiting a concrete latch-setting step. -/
theorem checkPhaseTransition_sets_iff_witness :
    (checkPhaseTransition (mkChannel []) 3 6 5).phaseTransitionOccurred = true
        ∧ (mkChannel []).phaseTransitionOccurred = false :=
  (checkPhaseTransition_sets_iff (mkChannel []) 3 6 5).mpr (by with_unfolding_all decide)

/-- Claim C2 (amended): in the orchestrated variant, `computeDensity` equals
exactly the specification's density formula (active signals of strength above
`0.1`, their mean strength, connectivity against `max(1, |active|·agentCount)`,
saturation denominator `agentCount × 8`, capped at `1`). -/
theorem computeDensity_matches_spec (ch : PheromoneChannel) (agentCount : ℕ)
    (_hn : 1 ≤ agentCount) :
    computeDensity ch agentCount = specDensityFormula ch agentCount := by
  simp only [computeDensity, specDensityFormula]
  by_cases hp : ch.pheromones = []
  · rw [if_pos hp, hp]
    simp
  · rw [if_neg hp]
    by_cases ha :
        ch.pheromones.filter (fun p => decide ((1 : ℚ)/10 < p.strength)) = []
    · rw [ha]
      simp
    · rw [if_neg ha]
      have hlen : (1 : ℚ) ≤
          ((ch.pheromones.filter (fun p => decide ((1 : ℚ)/10 < p.strength))).length : ℚ) := by
        have h0 : 0 <
            (ch.pheromones.filter (fun p => decide ((1 : ℚ)/10 < p.strength))).length :=
          List.length_pos.mpr ha
        exact_mod_cast h0
      rw [max_eq_right hlen]
      ring_nf

/-- Claim C2, counterexample to the claim as stated: the gossip runner's
per-tick density (`updateDensity`) disagrees with the specification formula on
a channel holding one active signal of strength `1/2` (it yields `1/32` where
the formula with six agents yields `1/96`). -/
theorem updateDensity_ne_spec :
    updateDensity chOnePher ≠ specDensityFormula chOnePher 6 := by
  with_unfolding_all decide

/-- Claim C2, witness: the orchestrated density equals the specification
formula on a concrete one-signal channel with six agents. -/
theorem computeDensity_matches_spec_witness :
    computeDensity chOnePher 6 = specDensityFormula chOnePher 6 :=
  computeDensity_matches_spec chOnePher 6 (by norm_num)

/-- A pheromone surviving `depositIfAbsent` was already present or is the
deposited one. -/
theorem mem_depositIfAbsent {ch : PheromoneChannel} {q p : Pheromone}
    (hp : p ∈ (depositIfAbsent ch q).pheromones) : p ∈ ch.pheromones ∨ p = q := by
  unfold depositIfAbsent at hp
  split at hp
  · exact Or.inl hp
  · rcases List.mem_append.mp hp with h | h
    · exact Or.inl h
    · simp only [List.mem_singleton] at h
      exact Or.inr h

/-- Claim C6 (amended): after `decay()` every surviving signal has
`0 ≤ strength ≤ 1` and `strength > 0.05`; the deposit operations (the POST
handler and the pull integration) preserve that invariant provided the
deposited signals themselves satisfy it — the handler performs no strength
check of its own. -/
theorem strength_invariant :
    (∀ ch : PheromoneChannel,
        (∀ p ∈ ch.pheromones, 0 ≤ p.strength ∧ p.strength ≤ 1) →
        ∀ p ∈ (decayPheromones ch).pheromones,
          0 ≤ p.strength ∧ p.strength ≤ 1 ∧ 1/20 < p.strength)
    ∧ (∀ (ch : PheromoneChannel) (q : Pheromone),
        (∀ p ∈ ch.pheromones, 0 ≤ p.strength ∧ p.strength ≤ 1 ∧ 1/20 < p.strength) →
        (0 ≤ q.strength ∧ q.strength ≤ 1 ∧ 1/20 < q.strength) →
        ∀ p ∈ (postPheromoneHandler ch q).pheromones,
          0 ≤ p.strength ∧ p.strength ≤ 1 ∧ 1/20 < p.strength)
    ∧ (∀ (ch : PheromoneChannel) (pulled : List Pheromone),
        (∀ p ∈ ch.pheromones, 0 ≤ p.strength ∧ p.strength ≤ 1 ∧ 1/20 < p.strength) →
        (∀ q ∈ pulled, 0 ≤ q.strength ∧ q.strength ≤ 1 ∧ 1/20 < q.strength) →
        ∀ p ∈ (pullIntegrate ch pulled).pheromones,
          0 ≤ p.strength ∧ p.strength ≤ 1 ∧ 1/20 < p.strength) := by
  refine ⟨?_, ?_, ?_⟩
  · intro ch h p hp
    simp only [decayPheromones, decaySurvivors] at hp
    rw [List.mem_filter] at hp
    obtain ⟨hmem, hpred⟩ := hp
    rw [List.mem_map] at hmem
    obtain ⟨q, hq, rfl⟩ := hmem
    obtain ⟨hq0, hq1⟩ := h q hq
    have h20 : (1 : ℚ)/20 < (decayOne q).strength := by
      simpa using hpred
    refine ⟨?_, ?_, h20⟩
    · simp only [decayOne]
      exact mul_nonneg hq0 (by norm_num)
    · simp only [decayOne]
      nlinarith
  · intro ch q hch hq p hp
    unfold postPheromoneHandler at hp
    split at hp
    · exact hch p hp
    · rcases mem_depositIfAbsent hp with h | rfl
      · exact hch p h
      · exact hq
  · intro ch pulled
    induction pulled generalizing ch with
    | nil => intro hch _ p hp; exact hch p hp
    | cons q qs ih =>
        intro hch hq p hp
        rw [pullIntegrate, List.foldl_cons] at hp
        refine ih (depositIfAbsent ch q) ?_ (fun r hr => hq r (List.mem_cons_of_mem q hr)) p hp
        intro r hr
        rcases mem_depositIfAbsent hr with h | rfl
        · exact hch r h
        · exact hq _ (List.mem_cons_self _ _)

/-- Claim C6, counterexample to the claim as stated: the POST handler accepts
a peer signal of strength `1/100 ≤ 0.05` unchecked, so the channel observed
right after the deposit violates the invariant. -/
theorem postPheromoneHandler_accepts_weak_signal :
    (postPheromoneHandler (mkChannel []) (mkPher 7 (1/100))).pheromones
        = [mkPher 7 (1/100)]
      ∧ ¬ (1/20 < (mkPher 7 (1/100)).strength) := by
  with_unfolding_all decide

/-- Claim C6, witness: the decay clause instantiated on a concrete channel. -/
theorem strength_invariant_witness :
    ∀ p ∈ (decayPheromones chOnePher).pheromones,
      0 ≤ p.strength ∧ p.strength ≤ 1 ∧ 1/20 < p.strength :=
  strength_invariant.1 chOnePher (by with_unfolding_all decide)

/-- `depositIfAbsent` keeps the id list duplicate-free. -/
theorem depositIfAbsent_nodup {ch : PheromoneChannel} {q : Pheromone}
    (h : (ch.pheromones.map (·.id)).Nodup) :
    ((depositIfAbsent ch q).pheromones.map (·.id)).Nodup := by
  unfold depositIfAbsent
  split
  · exact h
  · rename_i habs
    rw [List.map_append]
    rw [List.nodup_append]
    refine ⟨h, List.nodup_singleton _, ?_⟩
    intro x hx hx'
    simp only [List.map_cons, List.map_nil, List.mem_singleton] at hx'
    subst hx'
    rw [List.mem_map] at hx
    obtain ⟨e, he, heq⟩ := hx
    apply habs
    rw [List.any_eq_true]
    exact ⟨e, he, by simp [heq]⟩

/-- The deposited id is present after `depositIfAbsent`. -/
theorem depositIfAbsent_mem_self (ch : PheromoneChannel) (q : Pheromone) :
    q.id ∈ (depositIfAbsent ch q).pheromones.map (·.id) := by
  unfold depositIfAbsent
  split
  · rename_i habs
    rw [List.any_eq_true] at habs
    obtain ⟨e, he, heq⟩ := habs
    rw [List.mem_map]
    exact ⟨e, he, by simpa using heq⟩
  · rw [List.map_append]
    simp

/-- Ids present before `depositIfAbsent` remain present. -/
theorem depositIfAbsent_mem_mono {ch : PheromoneChannel} (q : Pheromone) {x : JStr}
    (h : x ∈ ch.pheromones.map (·.id)) :
    x ∈ (depositIfAbsent ch q).pheromones.map (·.id) := by
  unfold depositIfAbsent
  split
  · exact h
  · rw [List.map_append]
    exact List.mem_append_left _ h

/-- Ids present before a pull integration remain present. -/
theorem pullIntegrate_mem_mono (pulled : List Pheromone) :
    ∀ (ch : PheromoneChannel) (x : JStr), x ∈ ch.pheromones.map (·.id) →
      x ∈ (pullIntegrate ch pulled).pheromones.map (·.id) := by
  induction pulled with
  | nil => intro ch x h; exact h
  | cons q qs ih =>
      intro ch x h
      rw [pullIntegrate, List.foldl_cons]
      exact ih (depositIfAbsent ch q) x (depositIfAbsent_mem_mono q h)

/-- Pull integration keeps the id list duplicate-free. -/
theorem pullIntegrate_nodup (pulled : List Pheromone) :
    ∀ ch : PheromoneChannel, (ch.pheromones.map (·.id)).Nodup →
      ((pullIntegrate ch pulled).pheromones.map (·.id)).Nodup := by
  induction pulled with
  | nil => intro ch h; exact h
  | cons q qs ih =>
      intro ch h
      rw [pullIntegrate, List.foldl_cons]
      exact ih (depositIfAbsent ch q) (depositIfAbsent_nodup h)

/-- Every pulled pheromone's id is present after pull integration. -/
theorem pullIntegrate_mem_of_pulled (pulled : List Pheromone) :
    ∀ (ch : PheromoneChannel) (q : Pheromone), q ∈ pulled →
      q.id ∈ (pullIntegrate ch pulled).pheromones.map (·.id) := by
  induction pulled with
  | nil => intro ch q h; cases h
  | cons p ps ih =>
      intro ch q hq
      rw [pullIntegrate, List.foldl_cons]
      rcases List.mem_cons.mp hq with rfl | h
      · exact pullIntegrate_mem_mono ps (depositIfAbsent ch q) q.id
          (depositIfAbsent_mem_self ch q)
      · exact ih (depositIfAbsent ch p) q h

/-- Claim C7 (amended): the deposits that dedup by id — the POST handler (for
a non-empty id, its only guard) and the pull integration — leave exactly one
signal per deposited id and keep the channel's ids duplicate-free; the local
emit appends unconditionally. -/
theorem deposit_dedup :
    (∀ (ch : PheromoneChannel) (p : Pheromone),
        (ch.pheromones.map (·.id)).Nodup → p.id ≠ [] →
        countId (postPheromoneHandler ch p).pheromones p.id = 1 ∧
        ((postPheromoneHandler ch p).pheromones.map (·.id)).Nodup)
    ∧ (∀ (ch : PheromoneChannel) (pulled : List Pheromone),
        (ch.pheromones.map (·.id)).Nodup →
        ((pullIntegrate ch pulled).pheromones.map (·.id)).Nodup ∧
        ∀ q ∈ pulled, countId (pullIntegrate ch pulled).pheromones q.id = 1) := by
  constructor
  · intro ch p hnd hid
    unfold postPheromoneHandler
    rw [if_neg hid]
    refine ⟨?_, depositIfAbsent_nodup hnd⟩
    simpa [countId] using List.count_eq_one_of_mem (depositIfAbsent_nodup hnd)
      (depositIfAbsent_mem_self ch p)
  · intro ch pulled hnd
    refine ⟨pullIntegrate_nodup pulled ch hnd, ?_⟩
    intro q hq
    simpa [countId] using List.count_eq_one_of_mem (pullIntegrate_nodup pulled ch hnd)
      (pullIntegrate_mem_of_pulled pulled ch q hq)

/-- Claim C7, counterexample to the claim as stated: two local-emit deposits
of the same id (the emit path appends with no id check) leave two signals with
that id in the channel. -/
theorem emitDeposit_duplicates :
    countId (emitDeposit (emitDeposit (mkChannel []) (mkPher 1 (1/2)))
        (mkPher 1 (1/2))).pheromones (mkPher 1 (1/2)).id = 2 := by
  with_unfolding_all decide

/-- Claim C7, witness: the POST-handler clause instantiated on a concrete
channel and deposit. -/
theorem deposit_dedup_witness :
    countId (postPheromoneHandler (mkChannel [mkPher 1 (1/2)]) (mkPher 1 (3/4))).pheromones
        (mkPher 1 (3/4)).id = 1 ∧
      ((postPheromoneHandler (mkChannel [mkPher 1 (1/2)]) (mkPher 1 (3/4))).pheromones.map
        (·.id)).Nodup :=
  deposit_dedup.1 (mkChannel [mkPher 1 (1/2)]) (mkPher 1 (3/4))
    (by with_unfolding_all decide) (by with_unfolding_all decide)

/-- Claim C3 (amended): at `critical` or `dead` tier, `formThought`,
`analyzeDataset` and `synthesizeKnowledge` skip the LLM, report zero tokens —
so the caller's `tokensUsed += tokensUsed` leaves the counter unchanged — and
return the canned low-confidence thought (`confidence 0.2`, no suggested
actions).  The collective-report generation is not gated this way. -/
theorem credit_gate_skips_reasoning (st : ThinkerAgentState) (provider : LLMProvider)
    (fallbackModel : Option JStr) (trigger observation : JStr) (ds : ScienceDataset)
    (ps : List Pheromone) (llm : LLMOut) (freshId : JStr) (now : ℕ)
    (htier : st.credits.tier = Tier.critical ∨ st.credits.tier = Tier.dead) :
    (st.tokensUsed + (formThought st provider fallbackModel trigger observation llm freshId now).2
        = st.tokensUsed
      ∧ (formThought st provider fallbackModel trigger observation llm freshId now).1.confidence = 1/5
      ∧ (formThought st provider fallbackModel trigger observation llm freshId now).1.suggestedActions = [])
    ∧ (st.tokensUsed + (analyzeDataset st provider fallbackModel ds llm freshId now).2
        = st.tokensUsed
      ∧ (analyzeDataset st provider fallbackModel ds llm freshId now).1.confidence = 1/5
      ∧ (analyzeDataset st provider fallbackModel ds llm freshId now).1.suggestedActions = [])
    ∧ (st.tokensUsed + (synthesizeKnowledge st provider fallbackModel ps llm freshId now).2
        = st.tokensUsed
      ∧ (synthesizeKnowledge st provider fallbackModel ps llm freshId now).1.confidence = 1/5
      ∧ (synthesizeKnowledge st provider fallbackModel ps llm freshId now).1.suggestedActions = []) := by
  have hskip : (resolveModel st provider fallbackModel).2 = true := by
    rcases htier with h | h <;> simp [resolveModel, h]
  refine ⟨⟨?_, ?_, ?_⟩, ⟨?_, ?_, ?_⟩, ⟨?_, ?_, ?_⟩⟩ <;>
    simp [formThought, analyzeDataset, synthesizeKnowledge, hskip]

/-- Claim C3, counterexample to the claim as stated: the collective-report
path has no tier gate — a `dead`-tier agent running the runner's
collective-memory generation has its `tokensUsed` increased by the LLM's
reported 100 tokens. -/
theorem collective_report_not_gated :
    stDead.credits.tier = Tier.dead
      ∧ runnerCollectiveTokens stDead "NASA Science Collective Intelligence".toList reportBusy
          ≠ stDead.tokensUsed := by
  with_unfolding_all decide

/-- Claim C3, witness: the gate instantiated for a concrete `critical`-tier
agent and a busy LLM response. -/
theorem credit_gate_skips_reasoning_witness :
    stCritical.tokensUsed +
        (formThought stCritical LLMProvider.eigenai none "t".toList "o".toList llmBusy
          "id".toList 0).2 = stCritical.tokensUsed :=
  (credit_gate_skips_reasoning stCritical LLMProvider.eigenai none "t".toList "o".toList
    ⟨"near_earth_objects".toList, "s".toList, [], 0⟩ [] llmBusy "id".toList 0
    (Or.inl (by with_unfolding_all decide))).1.1

/-- `List.getD` stays inside a property satisfied by all elements and the
default. -/
theorem getD_ne_colon {l : JStr} {d : Char} (hl : ∀ c ∈ l, c ≠ ':') (hd : d ≠ ':') :
    ∀ n, l.getD n d ≠ ':' := by
  induction l with
  | nil => intro n; simpa using hd
  | cons c cs ih =>
      intro n
      cases n with
      | zero => exact hl c (List.mem_cons_self c cs)
      | succ m =>
          rw [List.getD_cons_succ]
          exact ih (fun x hx => hl x (List.mem_cons_of_mem c hx)) m

/-- Hex digits are never a colon. -/
theorem hexDigitChar_ne_colon (n : ℕ) : hexDigitChar n ≠ ':' :=
  getD_ne_colon (by decide) (by decide) n

/-- A hex rendering never contains a colon. -/
theorem colon_not_mem_bytesToHex (bs : List ℕ) : ':' ∉ bytesToHex bs := by
  induction bs with
  | nil => simp [bytesToHex]
  | cons b bs ih =>
      intro h
      simp only [bytesToHex, List.flatMap_cons] at h
      rcases List.mem_append.mp h with h' | h'
      · rcases List.mem_cons.mp h' with h'' | h''
        · exact hexDigitChar_ne_colon _ h''.symm
        · rcases List.mem_cons.mp h'' with h3 | h3
          · exact hexDigitChar_ne_colon _ h3.symm
          · cases h3
      · exact ih (by simpa [bytesToHex] using h')

/-- The sha256 hex string contains no colon. -/
theorem colon_not_mem_hashHex (s : JStr) : ':' ∉ hashHex s :=
  colon_not_mem_bytesToHex _

/-- Claim C4 (amended): both emission sites produce an attestation equal to
the SHA-256 fallback `hash(content + producerId + Date.now())` — a hex string
— and therefore never of the `"ed25519:<sig>:<pubkey>"` form; the keystore's
`buildAttestation` is not invoked on emission. -/
theorem emitted_attestation_is_sha_fallback (stateId : JStr) (decision : AgentDecision)
    (summary explorationTarget freshId : JStr) (now1 now2 : ℕ)
    (content datasetTopic : JStr) (confidence : ℚ) (connections : List JStr)
    (freshId2 : JStr) (m1 m2 : ℕ) :
    ((createSciencePheromone stateId decision summary explorationTarget freshId
          now1 now2).attestation = hashHex (summary ++ stateId ++ natRepr now2)
      ∧ ∀ sig pub : JStr,
          (createSciencePheromone stateId decision summary explorationTarget freshId
            now1 now2).attestation ≠ "ed25519:".toList ++ sig ++ ":".toList ++ pub)
    ∧ ((explorePheromone stateId content datasetTopic confidence connections freshId2
          m1 m2).attestation = hashHex (content ++ stateId ++ natRepr m2)
      ∧ ∀ sig pub : JStr,
          (explorePheromone stateId content datasetTopic confidence connections freshId2
            m1 m2).attestation ≠ "ed25519:".toList ++ sig ++ ":".toList ++ pub) := by
  refine ⟨⟨rfl, ?_⟩, rfl, ?_⟩ <;>
  · intro sig pub h
    apply colon_not_mem_hashHex _
    rw [show hashHex _ = "ed25519:".toList ++ sig ++ ":".toList ++ pub from h]
    exact List.mem_append_left _ (List.mem_append_right _ (by decide))

/-- Claim C4, counterexample to the claim as stated: a concrete deep-mode
emission whose attestation is not of the `"ed25519:<sig>:<pubkey>"` shape. -/
theorem emitted_attestation_not_ed25519 :
    ¬ ∃ sig pub : JStr,
      (createSciencePheromone "a".toList decLow "s".toList "t".toList "i".toList
          0 0).attestation = "ed25519:".toList ++ sig ++ ":".toList ++ pub := by
  rintro ⟨sig, pub, h⟩
  have h' : hashHex ("s".toList ++ "a".toList ++ natRepr 0)
      = "ed25519:".toList ++ sig ++ ":".toList ++ pub := h
  apply colon_not_mem_hashHex ("s".toList ++ "a".toList ++ natRepr 0)
  rw [h']
  exact List.mem_append_left _ (List.mem_append_right _ (by decide))

/-- Claim C4, witness: the amended characterization at a concrete emission. -/
theorem emitted_attestation_is_sha_fallback_witness :
    (createSciencePheromone "a".toList decLow "s".toList "t".toList "i".toList
        0 0).attestation = hashHex ("s".toList ++ "a".toList ++ natRepr 0) :=
  (emitted_attestation_is_sha_fallback "a".toList decLow "s".toList "t".toList
    "i".toList 0 0 "c".toList "d".toList (1/2) [] "j".toList 0 0).1.1

/-- A list is a boolean prefix of itself followed by anything. -/
theorem isPrefixOf_append_self (l r : JStr) : l.isPrefixOf (l ++ r) = true := by
  induction l with
  | nil => simp
  | cons c cs ih => simp [List.isPrefixOf_cons₂, ih]

/-- `split(":")` on a separator-free string yields the single field. -/
theorem jsplit_no_sep {sep : Char} : ∀ {b : JStr}, sep ∉ b → jsplit sep b = [b] := by
  intro b
  induction b with
  | nil => intro _; rfl
  | cons c rest ih =>
      intro h
      have hc : ¬c = sep := by
        intro hcs
        exact h (hcs ▸ List.mem_cons_self c rest)
      have hr := ih (fun hm => h (List.mem_cons_of_mem c hm))
      simp only [jsplit, if_neg hc, hr]

/-- `split(":")` peels off a leading separator-free field. -/
theorem jsplit_append {sep : Char} : ∀ {a : JStr} (b : JStr), sep ∉ a →
    jsplit sep (a ++ sep :: b) = a :: jsplit sep b := by
  intro a
  induction a with
  | nil => intro b _; simp [jsplit]
  | cons c cs ih =>
      intro b h
      have hc : ¬c = sep := by
        intro hcs
        exact h (hcs ▸ List.mem_cons_self c cs)
      have hr := ih b (fun hm => h (List.mem_cons_of_mem c hm))
      simp only [List.cons_append, jsplit, if_neg hc, List.append_eq, hr]

/-- Claim C9: signature round trip.  For any payload triple and any keypair
whose signature (by the node crypto contract) verifies and whose hex encodings
are colon-free, verifying the attestation built by `buildAttestation` yields
`valid = true` together with the public key and its fingerprint — the first 16
hex characters of `sha256(publicKeyHex)`. -/
theorem buildAttestation_roundtrip
    (sign : JStr → JStr → JStr) (verify : JStr → JStr → JStr → Bool)
    (content agentId : JStr) (timestamp : ℕ) (priv pub : JStr)
    (hver : verify (attestPayload content agentId timestamp)
        (sign priv (attestPayload content agentId timestamp)) pub = true)
    (hsig : ':' ∉ sign priv (attestPayload content agentId timestamp))
    (hpub : ':' ∉ pub) :
    verifyAttestation verify
        (buildAttestation sign content agentId timestamp priv pub)
        content agentId timestamp
      = { valid := true, publicKey := some pub,
          fingerprint := some ((hashHex pub).take 16) } := by
  have hassoc : buildAttestation sign content agentId timestamp priv pub
      = "ed25519:".toList ++
        (sign priv (attestPayload content agentId timestamp) ++ ':' :: pub) := by
    unfold buildAttestation
    simp
  rw [verifyAttestation, hassoc]
  rw [if_pos (isPrefixOf_append_self _ _)]
  rw [show (8 : ℕ) = ("ed25519:".toList).length from rfl, List.drop_left]
  rw [jsplit_append pub hsig, jsplit_no_sep hpub]
  simp [hver]

/-- Claim C9, witness: the round trip instantiated with a concrete toy
signature scheme satisfying the crypto contract. -/
theorem buildAttestation_roundtrip_witness :
    verifyAttestation (fun _ s _ => s == "a".toList)
        (buildAttestation (fun _ _ => "a".toList) "c".toList "p".toList 7
          "k".toList "b".toList) "c".toList "p".toList 7
      = { valid := true, publicKey := some "b".toList,
          fingerprint := some ((hashHex "b".toList).take 16) } :=
  buildAttestation_roundtrip (fun _ _ => "a".toList) (fun _ s _ => s == "a".toList)
    "c".toList "p".toList 7 "k".toList "b".toList (by decide) (by decide) (by decide)

/-- `depositIfAbsent` leaves the latch alone. -/
theorem depositIfAbsent_latch (ch : PheromoneChannel) (q : Pheromone) :
    (depositIfAbsent ch q).phaseTransitionOccurred = ch.phaseTransitionOccurred := by
  unfold depositIfAbsent
  split <;> rfl

/-- Pull integration leaves the latch alone. -/
theorem pullIntegrate_latch (pulled : List Pheromone) :
    ∀ ch : PheromoneChannel,
      (pullIntegrate ch pulled).phaseTransitionOccurred = ch.phaseTransitionOccurred := by
  induction pulled with
  | nil => intro ch; rfl
  | cons q qs ih =>
      intro ch
      rw [pullIntegrate, List.foldl_cons]
      rw [show List.foldl depositIfAbsent (depositIfAbsent ch q) qs
          = pullIntegrate (depositIfAbsent ch q) qs from rfl]
      rw [ih, depositIfAbsent_latch]

/-- The pull/decay/density phases leave the latch alone. -/
theorem tickCh3_latch (s : RunnerState) (inp : TickIn) :
    (tickCh3 s inp).phaseTransitionOccurred = s.channel.phaseTransitionOccurred := by
  simp only [tickCh3, decayPheromones]
  exact pullIntegrate_latch inp.pulled s.channel

/-- `tickSets` is the transition condition on the phase-3 channel. -/
theorem tickSets_eq (s : RunnerState) (inp : TickIn) :
    tickSets s inp = runnerTransitionFires (tickCh3 s inp) := rfl

/-- `tickResets` is the reset condition on the post-check channel. -/
theorem tickResets_eq (s : RunnerState) (inp : TickIn) :
    tickResets s inp
      = runnerResetFires (runnerTransitionCheck (tickCh3 s inp) (s.step + 1))
          (s.step + 1) := rfl

/-- A tick that sets the latch ends with the latch set: the reset cannot fire
on the very step that recorded the transition. -/
theorem tick_latch_of_sets {s : RunnerState} {inp : TickIn}
    (h : tickSets s inp = true) :
    (runnerTick s inp).channel.phaseTransitionOccurred = true := by
  rw [tickSets_eq] at h
  have hcheck : runnerTransitionCheck (tickCh3 s inp) (s.step + 1)
      = { tickCh3 s inp with phaseTransitionOccurred := true, transitionStep := some (s.step + 1) } := by
    unfold runnerTransitionCheck
    rw [if_pos h]
  have hnr : runnerResetFires
      ({ tickCh3 s inp with phaseTransitionOccurred := true, transitionStep := some (s.step + 1) } : PheromoneChannel)
      (s.step + 1) = false := by
    simp [runnerResetFires]
  have hres : runnerCycleReset
      ({ tickCh3 s inp with phaseTransitionOccurred := true, transitionStep := some (s.step + 1) } : PheromoneChannel)
      s.agent (s.step + 1) inp.energyRand
      = ({ tickCh3 s inp with phaseTransitionOccurred := true, transitionStep := some (s.step + 1) }, s.agent) := by
    unfold runnerCycleReset
    rw [if_neg (by simp [hnr])]
  simp only [runnerTick, runnerTickE]
  rw [hcheck, hres]
  cases inp.emitted <;> simp

/-- A latched tick without a reset stays latched: only the cycle reset clears
the latch. -/
theorem tick_latch_preserved {s : RunnerState} {inp : TickIn}
    (h : s.channel.phaseTransitionOccurred = true)
    (hr : tickResets s inp = false) :
    (runnerTick s inp).channel.phaseTransitionOccurred = true := by
  have h3 : (tickCh3 s inp).phaseTransitionOccurred = true := by
    rw [tickCh3_latch]; exact h
  have hset : runnerTransitionFires (tickCh3 s inp) = false := by
    simp [runnerTransitionFires, h3]
  have hcheck : runnerTransitionCheck (tickCh3 s inp) (s.step + 1) = tickCh3 s inp := by
    unfold runnerTransitionCheck
    rw [if_neg (by simp [hset])]
  rw [tickResets_eq, hcheck] at hr
  have hres : runnerCycleReset (tickCh3 s inp) s.agent (s.step + 1) inp.energyRand
      = (tickCh3 s inp, s.agent) := by
    unfold runnerCycleReset
    rw [if_neg (by simp [hr])]
  simp only [runnerTick, runnerTickE]
  rw [hcheck, hres]
  cases inp.emitted <;> simp [h3]

/-- A latched state can never fire the transition check. -/
theorem tick_not_sets_of_latched {s : RunnerState} (inp : TickIn)
    (h : s.channel.phaseTransitionOccurred = true) : tickSets s inp = false := by
  rw [tickSets_eq]
  simp [runnerTransitionFires, tickCh3_latch, h]

/-- The latch survives any reset-free run. -/
theorem latch_stays (l : List TickIn) :
    ∀ s : RunnerState, s.channel.phaseTransitionOccurred = true → NoReset s l →
      (runSteps s l).channel.phaseTransitionOccurred = true := by
  induction l with
  | nil => intro s h _; exact h
  | cons i l ih =>
      intro s h hnr
      rw [runSteps, List.foldl_cons]
      exact ih _ (tick_latch_preserved h hnr.1) hnr.2

/-- Claim C8: once a tick sets `phaseTransitionOccurred`, no later tick can
set it again before a cycle reset fires (the false→true transition happens at
most once per cycle); and the cycle reset clears the pheromone list, the
density, the latch and `transitionStep`, un-synchronizes the agent, clears
`syncedWith` and the absorbed set, and reseeds the energy into `[0.3, 0.5]`. -/
theorem latch_once_per_cycle_and_reset_clears :
    (∀ (s : RunnerState) (i1 : TickIn) (mid : List TickIn) (i2 : TickIn),
        tickSets s i1 = true → NoReset (runnerTick s i1) mid →
        tickSets (runSteps (runnerTick s i1) mid) i2 = false)
    ∧ (∀ (ch : PheromoneChannel) (ag : RunnerAgent) (step : ℕ) (rand : ℚ),
        runnerResetFires ch step = true → 0 ≤ rand → rand < 1 →
        ((runnerCycleReset ch ag step rand).1.pheromones = [] ∧
          (runnerCycleReset ch ag step rand).1.density = 0 ∧
          (runnerCycleReset ch ag step rand).1.phaseTransitionOccurred = false ∧
          (runnerCycleReset ch ag step rand).1.transitionStep = none ∧
          (runnerCycleReset ch ag step rand).2.synchronized = false ∧
          (runnerCycleReset ch ag step rand).2.syncedWith = [] ∧
          (runnerCycleReset ch ag step rand).2.absorbed = [] ∧
          3/10 ≤ (runnerCycleReset ch ag step rand).2.energy ∧
          (runnerCycleReset ch ag step rand).2.energy ≤ 1/2)) := by
  constructor
  · intro s i1 mid i2 hset hnr
    exact tick_not_sets_of_latched i2 (latch_stays mid _ (tick_latch_of_sets hset) hnr)
  · intro ch ag step rand hfire h0 h1
    rw [runnerCycleReset, if_pos hfire]
    refine ⟨rfl, rfl, rfl, rfl, rfl, rfl, rfl, by show (3:ℚ)/10 ≤ 3/10 + rand * (1/5); linarith, ?_⟩
    show 3/10 + rand * (1/5) ≤ 1/2
    linarith

/-- Claim C8, witness: a concrete latch-setting tick (ten pulled full-strength
pheromones drive the density to the critical threshold) followed by a tick
that cannot set again; and the reset postcondition on a concrete latched
channel eighteen steps after its transition. -/
theorem latch_once_per_cycle_and_reset_clears_witness :
    tickSets (runSteps (runnerTick rsInit tickPull10) []) tickIdle = false
    ∧ ((runnerCycleReset chLatched agNeutral 19 (1/2)).1.pheromones = [] ∧
        (runnerCycleReset chLatched agNeutral 19 (1/2)).1.density = 0 ∧
        (runnerCycleReset chLatched agNeutral 19 (1/2)).1.phaseTransitionOccurred = false ∧
        (runnerCycleReset chLatched agNeutral 19 (1/2)).1.transitionStep = none ∧
        (runnerCycleReset chLatched agNeutral 19 (1/2)).2.synchronized = false ∧
        (runnerCycleReset chLatched agNeutral 19 (1/2)).2.syncedWith = [] ∧
        (runnerCycleReset chLatched agNeutral 19 (1/2)).2.absorbed = [] ∧
        3/10 ≤ (runnerCycleReset chLatched agNeutral 19 (1/2)).2.energy ∧
        (runnerCycleReset chLatched agNeutral 19 (1/2)).2.energy ≤ 1/2) :=
  ⟨latch_once_per_cycle_and_reset_clears.1 rsInit tickPull10 [] tickIdle
      (by with_unfolding_all decide) trivial,
    latch_once_per_cycle_and_reset_clears.2 chLatched agNeutral 19 (1/2)
      (by with_unfolding_all decide) (by norm_num) (by norm_num)⟩

/-- An optional lookup with default returns the default or a member. -/
theorem getD_mem_or_default {α : Type} (l : List α) (dflt : α) :
    ∀ n : ℕ, l[n]?.getD dflt = dflt ∨ l[n]?.getD dflt ∈ l := by
  induction l with
  | nil => intro n; left; simp
  | cons a l ih =>
      intro n
      cases n with
      | zero => right; simp
      | succ m =>
          rw [List.getElem?_cons_succ]
          rcases ih m with h | h
          · exact Or.inl h
          · exact Or.inr (List.mem_cons_of_mem a h)

/-- Claim C10: `selectDecision` is total — it returns `null` exactly on the
empty candidate list, and on a non-empty list every result (including the
fall-through `return candidates[0]`) is an element of the input list, for
every temperature and every random draw. -/
theorem selectDecision_total (cands : List AgentDecision) (T : ℚ) (r : ℝ) :
    (selectDecision cands T r = none ↔ cands = [])
    ∧ ∀ d, selectDecision cands T r = some d → d ∈ cands := by
  cases cands with
  | nil =>
      constructor
      · simp [selectDecision]
      · intro d h
        simp [selectDecision] at h
  | cons c rest =>
      constructor
      · by_cases hT : T = 0 <;> simp [selectDecision, hT]
      · intro d h
        by_cases hT : T = 0
        · simp [selectDecision, hT] at h
          rw [← h]
          exact List.mem_cons_self c rest
        · simp [selectDecision, hT] at h
          rcases getD_mem_or_default (c :: rest) c (selectIndex (c :: rest) T r) with
            he | hm
          · rw [← h, he]
            exact List.mem_cons_self c rest
          · rw [← h]
            exact hm

/-- Claim C10, witness: `null` on the empty list; a member on a singleton. -/
theorem selectDecision_total_witness :
    selectDecision [] 0 0 = none ∧ decLow ∈ [decLow] :=
  ⟨(selectDecision_total [] 0 0).1.mpr rfl,
   (selectDecision_total [decLow] 0 0).2 decLow (by simp [selectDecision])⟩

/-- `psum` of the empty list. -/
theorem psum_nil : ∀ n, psum [] n = 0 := by
  intro n; cases n <;> rfl

/-- `psum` of zero entries. -/
theorem psum_zero (ws : List ℝ) : psum ws 0 = 0 := by
  cases ws <;> rfl

/-- `psum` of nonnegative entries is nonnegative. -/
theorem psum_nonneg (ws : List ℝ) (h : ∀ w ∈ ws, 0 ≤ w) :
    ∀ n, 0 ≤ psum ws n := by
  induction ws with
  | nil => intro n; rw [psum_nil]
  | cons w ws ih =>
      intro n
      cases n with
      | zero => rw [psum_zero]
      | succ m =>
          have h1 : 0 ≤ w := h w (List.mem_cons_self w ws)
          have h2 : 0 ≤ psum ws m := ih (fun x hx => h x (List.mem_cons_of_mem w hx)) m
          show 0 ≤ w + psum ws m
          linarith

/-- `psum` of nonnegative entries is monotone in the cut point. -/
theorem psum_mono (ws : List ℝ) (h : ∀ w ∈ ws, 0 ≤ w) :
    ∀ {m n : ℕ}, m ≤ n → psum ws m ≤ psum ws n := by
  induction ws with
  | nil => intro m n _; rw [psum_nil, psum_nil]
  | cons w ws ih =>
      intro m n hmn
      cases m with
      | zero => rw [psum_zero]; exact psum_nonneg _ h n
      | succ m' =>
          cases n with
          | zero => omega
          | succ n' =>
              have h2 := ih (fun x hx => h x (List.mem_cons_of_mem w hx))
                (Nat.succ_le_succ_iff.mp hmn)
              show w + psum ws m' ≤ w + psum ws n'
              linarith

/-- Successive partial sums differ by the indexed weight. -/
theorem psum_get (ws : List ℝ) :
    ∀ (i : ℕ) (h : i < ws.length), psum ws (i + 1) = psum ws i + ws.get ⟨i, h⟩ := by
  induction ws with
  | nil => intro i h; simp at h
  | cons w ws ih =>
      intro i h
      cases i with
      | zero =>
          show w + psum ws 0 = psum (w :: ws) 0 + (w :: ws).get ⟨0, h⟩
          rw [psum_zero, psum_zero]
          simp
      | succ i' =>
          have h' : i' < ws.length := by simpa using h
          show w + psum ws (i' + 1) = (w + psum ws i') + (w :: ws).get ⟨i' + 1, h⟩
          rw [ih i' h']
          show w + (psum ws i' + ws.get ⟨i', h'⟩) = w + psum ws i' + ws.get ⟨i', h'⟩
          ring

/-- The full partial sum is the list sum. -/
theorem psum_sum (ws : List ℝ) : psum ws ws.length = ws.sum := by
  induction ws with
  | nil => rfl
  | cons w ws ih =>
      show w + psum ws ws.length = (w :: ws).sum
      rw [ih, List.sum_cons]

/-- Partial sums of nonnegative entries are bounded by the list sum. -/
theorem psum_le_sum (ws : List ℝ) (h : ∀ w ∈ ws, 0 ≤ w) :
    ∀ n, psum ws n ≤ ws.sum := by
  have hover : ∀ (l : List ℝ) (n : ℕ), l.length ≤ n → psum l n = l.sum := by
    intro l
    induction l with
    | nil => intro n _; rw [psum_nil]; rfl
    | cons w l ih =>
        intro n hn
        cases n with
        | zero => simp at hn
        | succ n' =>
            show w + psum l n' = (w :: l).sum
            rw [ih n' (by simpa using hn), List.sum_cons]
  intro n
  by_cases hn : n ≤ ws.length
  · rw [← psum_sum ws]
    exact psum_mono ws h hn
  · rw [hover ws n (by omega)]

/-- Characterization of the sampling loop: it returns index `i` exactly when
`i` is in range, the roll does not exceed the `(i+1)`-st partial sum, and it
exceeds every earlier one. -/
theorem selectLoop_eq_some_iff (ws : List ℝ) :
    ∀ (roll : ℝ) (i : ℕ),
      selectLoop ws roll = some i ↔
        (i < ws.length ∧ roll ≤ psum ws (i + 1) ∧ ∀ j < i, psum ws (j + 1) < roll) := by
  induction ws with
  | nil =>
      intro roll i
      simp [selectLoop]
  | cons w ws ih =>
      intro roll i
      rw [selectLoop]
      by_cases hc : roll - w ≤ 0
      · rw [if_pos hc]
        constructor
        · intro h
          have hi : i = 0 := by
            have := Option.some.injEq 0 i ▸ h
            simpa using h.symm
          subst hi
          refine ⟨Nat.succ_pos _, ?_, by omega⟩
          show roll ≤ w + psum ws 0
          rw [psum_zero]
          linarith
        · rintro ⟨hlen, hle, hforall⟩
          cases i with
          | zero => rfl
          | succ i' =>
              exfalso
              have h0 := hforall 0 (Nat.succ_pos _)
              rw [show psum (w :: ws) 1 = w + psum ws 0 from rfl, psum_zero] at h0
              linarith
      · rw [if_neg hc]
        have hw : w < roll := by
          have := not_le.mp hc
          linarith
        constructor
        · intro h
          rw [Option.map_eq_some'] at h
          obtain ⟨a, ha, rfl⟩ := h
          obtain ⟨halen, hale, haforall⟩ := (ih (roll - w) a).mp ha
          refine ⟨by simpa using Nat.succ_lt_succ halen, ?_, ?_⟩
          · show roll ≤ w + psum ws (a + 1)
            linarith
          · intro j hj
            cases j with
            | zero =>
                show w + psum ws 0 < roll
                rw [psum_zero]
                linarith
            | succ j' =>
                have hj' : j' < a := by omega
                have := haforall j' hj'
                show w + psum ws (j' + 1) < roll
                linarith
        · rintro ⟨hlen, hle, hforall⟩
          cases i with
          | zero =>
              exfalso
              rw [show psum (w :: ws) 1 = w + psum ws 0 from rfl, psum_zero] at hle
              linarith
          | succ i' =>
              have hsub : selectLoop ws (roll - w) = some i' := by
                refine (ih (roll - w) i').mpr ⟨by simpa using hlen, ?_, ?_⟩
                · have : roll ≤ w + psum ws (i' + 1) := hle
                  linarith
                · intro j hj
                  have := hforall (j + 1) (by omega)
                  have h2 : w + psum ws (j + 1) < roll := this
                  linarith
              rw [hsub]
              rfl

/-- The sampling loop cannot fall through while the roll is inside the total
weight. -/
theorem selectLoop_isSome (ws : List ℝ) :
    ∀ roll : ℝ, 0 ≤ roll → roll < ws.sum → (selectLoop ws roll).isSome = true := by
  induction ws with
  | nil =>
      intro roll h0 hlt
      rw [List.sum_nil] at hlt
      linarith
  | cons w ws ih =>
      intro roll h0 hlt
      rw [selectLoop]
      by_cases hc : roll - w ≤ 0
      · rw [if_pos hc]; rfl
      · rw [if_neg hc]
        rw [List.sum_cons] at hlt
        have := ih (roll - w) (by linarith [not_le.mp hc]) (by linarith)
        cases h' : selectLoop ws (roll - w) with
        | none => rw [h'] at this; simp at this
        | some a => rfl

/-- Claim C5 (amended): with `temperature = 0`, `selectDecision` returns the
first candidate — on the descending-priority-sorted lists produced by
`generateCandidateDecisions` this is a maximal-priority candidate, the first
such on ties; with `temperature > 0`, the random draw `r ~ U[0,1)` selects
index `i` on a set of Lebesgue measure exactly
`exp((priority_i − max priority)/T) / Σ_j exp((priority_j − max priority)/T)`,
i.e. sampling is proportional to the softmax weights. -/
theorem selectDecision_head_and_softmax (cands : List AgentDecision) (hne : cands ≠ []) :
    (∀ r : ℝ, cands.Sorted (fun a b => b.priority ≤ a.priority) →
        selectDecision cands 0 r = some (cands.head hne)
          ∧ ∀ d ∈ cands, d.priority ≤ (cands.head hne).priority)
    ∧ (∀ T : ℚ, 0 < T → ∀ (i : ℕ) (hi : i < cands.length),
        MeasureTheory.volume
            {r ∈ Set.Ico (0 : ℝ) 1 | selectIndex cands T r = i}
          = ENNReal.ofReal
              (Real.exp ((((cands.get ⟨i, hi⟩).priority : ℝ) - ((maxPri cands : ℚ) : ℝ)) / (T : ℝ))
                / wtotal cands T)) := by
  constructor
  · intro r hsort
    obtain ⟨c, rest, rfl⟩ := List.exists_cons_of_ne_nil hne
    constructor
    · simp [selectDecision]
    · intro d hd
      rcases List.mem_cons.mp hd with rfl | hd'
      · simp
      · have := List.rel_of_sorted_cons hsort d hd'
        simpa using this
  · intro T hT i hi
    set ws := weightsOf cands T with hws
    have hlen : ws.length = cands.length := by
      rw [hws, weightsOf]
      exact List.length_map _ _
    have hpos : ∀ w ∈ ws, 0 < w := by
      intro w hw
      rw [hws, weightsOf] at hw
      obtain ⟨d, _, rfl⟩ := List.mem_map.mp hw
      exact Real.exp_pos _
    have hnn : ∀ w ∈ ws, 0 ≤ w := fun w hw => le_of_lt (hpos w hw)
    have hwsne : ws ≠ [] := by
      rw [hws, weightsOf]
      simpa using hne
    have htotal : wtotal cands T = ws.sum := by rw [wtotal, hws]
    have htpos : 0 < ws.sum := List.sum_pos ws hpos hwsne
    have hiw : i < ws.length := by rw [hlen]; exact hi
    have hA0 : 0 ≤ psum ws i / ws.sum :=
      div_nonneg (psum_nonneg ws hnn i) (le_of_lt htpos)
    have hB1 : psum ws (i + 1) / ws.sum ≤ 1 := by
      rw [div_le_one htpos]
      exact psum_le_sum ws hnn (i + 1)
    have hsub1 : Set.Ioo (psum ws i / ws.sum) (psum ws (i + 1) / ws.sum)
        ⊆ {r ∈ Set.Ico (0 : ℝ) 1 | selectIndex cands T r = i} := by
      rintro r ⟨hra, hrb⟩
      have hr0 : 0 ≤ r := le_of_lt (lt_of_le_of_lt hA0 hra)
      have hr1 : r < 1 := lt_of_lt_of_le hrb hB1
      refine ⟨⟨hr0, hr1⟩, ?_⟩
      rw [div_lt_iff₀ htpos] at hra
      rw [lt_div_iff₀ htpos] at hrb
      have hsel : selectLoop ws (r * ws.sum) = some i := by
        refine (selectLoop_eq_some_iff ws (r * ws.sum) i).mpr
          ⟨hiw, le_of_lt hrb, ?_⟩
        intro j hj
        have hmono : psum ws (j + 1) ≤ psum ws i := psum_mono ws hnn (by omega)
        linarith
      simp only [selectIndex, ← hws]
      rw [htotal, hsel]
      rfl
    have hsub2 : {r ∈ Set.Ico (0 : ℝ) 1 | selectIndex cands T r = i}
        ⊆ Set.Icc (psum ws i / ws.sum) (psum ws (i + 1) / ws.sum) := by
      rintro r ⟨⟨hr0, hr1⟩, hsel⟩
      have hroll0 : 0 ≤ r * ws.sum := mul_nonneg hr0 (le_of_lt htpos)
      have hrolllt : r * ws.sum < ws.sum := by nlinarith
      have hsome := selectLoop_isSome ws (r * ws.sum) hroll0 hrolllt
      obtain ⟨k, hk⟩ := Option.isSome_iff_exists.mp hsome
      have hki : k = i := by
        have hsi : selectIndex cands T r = k := by
          simp only [selectIndex, ← hws]
          rw [htotal, hk]
          rfl
        rw [hsi] at hsel
        exact hsel
      subst hki
      obtain ⟨hklen, hkle, hkfor⟩ := (selectLoop_eq_some_iff ws (r * ws.sum) k).mp hk
      constructor
      · cases k with
        | zero =>
            rw [psum_zero, zero_div]
            exact hr0
        | succ j =>
            have := hkfor j (Nat.lt_succ_self j)
            rw [div_le_iff₀ htpos]
            linarith
      · rw [le_div_iff₀ htpos]
        exact hkle
    have h1 : MeasureTheory.volume (Set.Ioo (psum ws i / ws.sum) (psum ws (i + 1) / ws.sum))
        ≤ MeasureTheory.volume {r ∈ Set.Ico (0 : ℝ) 1 | selectIndex cands T r = i} :=
      MeasureTheory.measure_mono hsub1
    have h2 : MeasureTheory.volume {r ∈ Set.Ico (0 : ℝ) 1 | selectIndex cands T r = i}
        ≤ MeasureTheory.volume (Set.Icc (psum ws i / ws.sum) (psum ws (i + 1) / ws.sum)) :=
      MeasureTheory.measure_mono hsub2
    rw [Real.volume_Ioo] at h1
    rw [Real.volume_Icc] at h2
    have hvol : MeasureTheory.volume {r ∈ Set.Ico (0 : ℝ) 1 | selectIndex cands T r = i}
        = ENNReal.ofReal (psum ws (i + 1) / ws.sum - psum ws i / ws.sum) :=
      le_antisymm h2 h1
    rw [hvol]
    congr 1
    rw [div_sub_div_same, psum_get ws i hiw]
    rw [show psum ws i + ws.get ⟨i, hiw⟩ - psum ws i = ws.get ⟨i, hiw⟩ by ring]
    rw [← htotal]
    congr 1
    show (weightsOf cands T).get ⟨i, hiw⟩ = _
    rw [List.get_eq_getElem]
    simp only [weightsOf]
    rw [List.getElem_map]
    rw [List.get_eq_getElem]

/-- Claim C5, counterexample to the claim as stated: with `temperature = 0`,
`selectDecision` returns the first candidate even when a later candidate has
strictly larger priority. -/
theorem selectDecision_T0_not_argmax :
    selectDecision [decLow, decHigh] 0 0 = some decLow
      ∧ decLow.priority < decHigh.priority := by
  constructor
  · simp [selectDecision]
  · show (1 : ℚ)/10 < 9/10
    norm_num

/-- Claim C5, witness: the amended statement instantiated on a concrete
two-candidate list — the sorted head at `T = 0`, and the exact softmax measure
of the first index at `T = 1`. -/
theorem selectDecision_head_and_softmax_witness :
    (selectDecision [decHigh, decLow] 0 0
        = some ([decHigh, decLow].head (by simp))
      ∧ ∀ d ∈ [decHigh, decLow],
          d.priority ≤ ([decHigh, decLow].head (by simp)).priority)
    ∧ MeasureTheory.volume
          {r ∈ Set.Ico (0 : ℝ) 1 | selectIndex [decHigh, decLow] 1 r = 0}
        = ENNReal.ofReal
            (Real.exp (((([decHigh, decLow].get ⟨0, by simp⟩).priority : ℝ)
                - ((maxPri [decHigh, decLow] : ℚ) : ℝ)) / ((1 : ℚ) : ℝ))
              / wtotal [decHigh, decLow] 1) :=
  ⟨(selectDecision_head_and_softmax [decHigh, decLow] (by simp)).1 0
      (by
        constructor
        · intro b hb
          simp only [List.mem_singleton] at hb
          subst hb
          show (1 : ℚ)/10 ≤ 9/10
          norm_num
        · simp),
    (selectDecision_head_and_softmax [decHigh, decLow] (by simp)).2 1
      (by norm_num) 0 (by simp)⟩
